import Mathlib

/-!
# Verification of the tx-linker analytics backend core

Shallow embedding of `src/index.ts` and `src/db.ts`: the time-bucketing
(`Date.toISOString().substring(0, 16) + '0:00'`), the ingestion handlers,
the 60-slot densified series builder, and the upsert-increment store
operation.  Instants are modelled as milliseconds since the Unix epoch
(the value of a JavaScript `Date`), for instants whose UTC year has four
digits (1970-01-01 through 9999-12-31) — the range in which the key format
`YYYY-MM-DD...` of the spec is meaningful.
-/

namespace TxLinker

/-- Proleptic-Gregorian leap-year test (the calendar used by
JavaScript `Date` / ISO-8601 UTC). -/
def isLeap (y : Nat) : Bool :=
  (y % 4 == 0 && y % 100 != 0) || y % 400 == 0

/-- Number of days in year `y`. -/
def daysInYear (y : Nat) : Nat :=
  if isLeap y then 366 else 365

/-- Total number of days in the `n` consecutive years starting at year `y`. -/
def daysFrom (y : Nat) : Nat → Nat
  | 0 => 0
  | n + 1 => daysInYear y + daysFrom (y + 1) n

/-- Resolve a day count (days since `y`-01-01) into `(year, dayOfYear)`,
peeling one year per step; `fuel` bounds the number of years scanned. -/
def yearLoop : Nat → Nat → Nat → Nat × Nat
  | 0, y, z => (y, z)
  | fuel + 1, y, z =>
    if z < daysInYear y then (y, z) else yearLoop fuel (y + 1) (z - daysInYear y)

/-- Month lengths for a (non-)leap year, January first. -/
def monthLengths (leap : Bool) : List Nat :=
  [31, if leap then 29 else 28, 31, 30, 31, 30, 31, 31, 30, 31, 30, 31]

/-- Resolve a 0-based day-of-year against a list of month lengths into
`(month, dayOfMonth)` (both 1-based). -/
def findMonth : List Nat → Nat → Nat → Nat × Nat
  | [], m, r => (m, r + 1)
  | len :: rest, m, r =>
    if r < len then (m, r + 1) else findMonth rest (m + 1) (r - len)

/-- The character for a decimal digit `d < 10`. -/
def digitChar (d : Nat) : Char :=
  Char.ofNat (48 + d)

/-- Fixed-width, zero-padded decimal rendering of `n` (most significant
digit first), as used by `Date.prototype.toISOString`'s field formatting. -/
def padNum : Nat → Nat → List Char
  | 0, _ => []
  | w + 1, n => digitChar (n / 10 ^ w) :: padNum w (n % 10 ^ w)

/-- Number of whole days of `ms` (milliseconds since epoch). -/
def dayOf (ms : Nat) : Nat := ms / 86400000

/-- Millisecond of day. -/
def msOfDay (ms : Nat) : Nat := ms % 86400000

/-- Year count scanned by the calendar conversion: enough for every
instant before year 10000 (8030 years from 1970). -/
def yearFuel : Nat := 8030

/-- The `(year, dayOfYear)` pair of a day count since 1970-01-01. -/
def civilYear (z : Nat) : Nat × Nat := yearLoop yearFuel 1970 z

/-- The `(month, day)` pair of a year/dayOfYear pair. -/
def civilMonthDay (y doy : Nat) : Nat × Nat :=
  findMonth (monthLengths (isLeap y)) 1 doy

/-- The `YYYY-MM-DD` characters of day count `z`, with `rest` appended
(difference-list style so prefixes of the ISO string stay in one shape). -/
def dateChars (z : Nat) (rest : List Char) : List Char :=
  let p := civilYear z
  let md := civilMonthDay p.1 p.2
  padNum 4 p.1 ++ '-' :: padNum 2 md.1 ++ '-' :: padNum 2 md.2 ++ rest

/-- The first 16 characters `YYYY-MM-DDTHH:MM` of the ISO string of `ms`,
with `rest` appended. -/
def isoPre16 (ms : Nat) (rest : List Char) : List Char :=
  dateChars (dayOf ms)
    ('T' :: padNum 2 (msOfDay ms / 3600000) ++
      ':' :: padNum 2 (msOfDay ms % 3600000 / 60000) ++ rest)

/-- All characters of the ISO-8601 UTC string of `ms`:
`YYYY-MM-DDTHH:MM:SS.sssZ`. -/
def isoChars (ms : Nat) : List Char :=
  isoPre16 ms
    (':' :: padNum 2 (msOfDay ms % 60000 / 1000) ++
      '.' :: padNum 3 (msOfDay ms % 1000) ++ ['Z'])

/-- Model of JavaScript `Date.prototype.toISOString()` for an instant `ms`
milliseconds after the epoch (UTC, millisecond precision, `Z` suffix),
valid for instants with a four-digit year. -/
def toISOString (ms : Nat) : String :=
  ⟨isoChars ms⟩

/-- Model of JavaScript `s.substring(0, 16)`: the first 16 characters
(all characters produced here are ASCII, so code units = characters). -/
def substring016 (s : String) : String :=
  ⟨s.data.take 16⟩

/-- Spec name `TimeBucketer.bucketKey`: the bucket-key rule of the source,
`timestamp.toISOString().substring(0, 16) + '0:00'` (`src/index.ts:50`). -/
def bucketKey (ms : Nat) : String :=
  substring016 (toISOString ms) ++ "0:00"

/-- The first 16 ISO characters as a function of the instant's minute
number `m60 = ms / 60000`: the shape `isoPre16` provably reduces to. -/
def minutePre (m60 : Nat) (rest : List Char) : List Char :=
  dateChars (m60 / 1440)
    ('T' :: padNum 2 (m60 % 1440 / 60) ++ ':' :: padNum 2 (m60 % 60) ++ rest)

/-! ## Data model (`src/db.ts`) and store writes -/

/-- The `PageLoad` document (`src/db.ts:8`): one aggregate counter per
(`eventType`, `timeKey`) pair — the pair carries a unique index. -/
structure BucketCounter where
  eventType : String
  timeKey : String
  count : Nat
  lastUpdated : Nat
deriving DecidableEq, Repr

/-- The `PageLoadDetail` / `AnalyticsEvent` document (`src/db.ts:15`, `src/db.ts:25`):
one immutable record per raw occurrence.  `J` is the uninterpreted JSON payload
type of `eventData` (`mongoose.Schema.Types.Mixed`). -/
structure DetailRecord (J : Type) where
  eventType : String
  timeKey : String
  timestamp : Nat
  userAgent : String
  ipAddress : Option String
  referrer : String
  eventData : J
deriving DecidableEq, Repr

/-- A write issued against the document store by a handler. -/
inductive StoreWrite (J : Type) where
  /-- Call `PageLoadModel.findOneAndUpdate(filter, \x7b $inc: \x7b count: 1 \x7d,
  $set: \x7b lastUpdated \x7d \x7d, \x7b upsert: true \x7d)` (`src/index.ts:57`). -/
  | inc (eventType timeKey : String) (now : Nat)
  /-- Call `PageLoadDetailModel.create` (`src/index.ts:76`). -/
  | detailPageLoad (r : DetailRecord J)
  /-- Call `AnalyticsEventModel.create` (`src/index.ts:117`). -/
  | detailAnalytics (r : DetailRecord J)
deriving DecidableEq, Repr

/-- Body of an HTTP response produced by the handlers. -/
inductive ApiBody where
  | ok
  | err (msg : String)
  | series (slots : List (String × String × Nat))
deriving DecidableEq, Repr

/-- An HTTP response: status code and JSON body. -/
structure Response where
  status : Nat
  body : ApiBody
deriving DecidableEq, Repr

/-- Response `res.status(200).json(\x7b success: true \x7d)`. -/
def ok200 : Response := ⟨200, ApiBody.ok⟩

/-- The `errorHandler` middleware (`src/index.ts:28`): every error passed to
`next` becomes `res.status(500).json(\x7b success: false, error: err.message \x7d)`. -/
def errorHandler (msg : String) : Response := ⟨500, ApiBody.err msg⟩

/-! ## Ingestion handlers (`src/index.ts`) -/

/-- Handler for `POST /api/analytics/pageload` (`src/index.ts:40`).  Inputs: the current
instant, the fresh `uuidv4()` value, the request metadata
(`user-agent` header, `req.ip`, `referer` header) and raw JSON body; the
outcomes of the two awaited store calls are passed in as `Except` values
(`.error e` models the promise rejecting with message `e`).  Returns the
store writes that took effect, in order, and the HTTP response. -/
def recordPageLoad {J : Type} (now : Nat) (uuid : String)
    (userAgent ip referer : Option String) (body : J)
    (incRes appendRes : Except String Unit) :
    List (StoreWrite J) × Response :=
  let minuteKey := substring016 (toISOString now) ++ "0:00"
  match incRes with
  | .error e => ([], errorHandler e)
  | .ok _ =>
    let w1 : StoreWrite J := .inc "pageLoad" minuteKey now
    match appendRes with
    | .error e => ([w1], errorHandler e)
    | .ok _ =>
      ([w1, .detailPageLoad {
          eventType := "pageLoadDetail"
          timeKey := minuteKey ++ "#" ++ uuid
          timestamp := now
          userAgent := userAgent.getD "Unknown"
          ipAddress := ip
          referrer := referer.getD "Direct"
          eventData := body }], ok200)

/-- Handler for `POST /api/analytics/event` (`src/index.ts:101`).  The body is
destructured as `\x7b event, data \x7d`; a missing `event` field is
`undefined`, which the template literal renders as the string
`"undefined"`. -/
def recordEvent {J : Type} (now : Nat) (uuid : String)
    (userAgent ip referer : Option String)
    (event : Option String) (data : J)
    (appendRes : Except String Unit) :
    List (StoreWrite J) × Response :=
  match appendRes with
  | .error e => ([], errorHandler e)
  | .ok _ =>
    ([.detailAnalytics {
        eventType := "event_" ++ event.getD "undefined"
        timeKey := toISOString now ++ "#" ++ uuid
        timestamp := now
        userAgent := userAgent.getD "Unknown"
        ipAddress := ip
        referrer := referer.getD "Direct"
        eventData := data }], ok200)

/-! ## Range query and 60-slot series (`src/index.ts:142`) -/

/-- The `PageLoadModel.find` filter of `src/index.ts:160`: equality on
`eventType` and an inclusive (`$gte`/`$lte`) range on `timeKey`, results
sorted by `timeKey` ascending. -/
structure RangeQuery where
  eventType : String
  gteKey : String
  lteKey : String
deriving DecidableEq, Repr

/-- One slot of the loop body at `src/index.ts:173`: key, display time and
count for minute `now - i*60000`; the count comes from the first counter in
`result` whose `timeKey` equals this slot's key, else `0`. -/
def seriesSlot (now : Nat) (display : Nat → String)
    (result : List BucketCounter) (i : Nat) : String × String × Nat :=
  let minuteTime := now - i * 60000
  let minuteKey := substring016 (toISOString minuteTime) ++ "0:00"
  (minuteKey, display minuteTime,
    match result.find? (fun item => item.timeKey == minuteKey) with
    | some item => item.count
    | none => 0)

/-- The `pageLoads` array built by the loop `for i in 0..59` with
`unshift` (`src/index.ts:172`): each iteration prepends, so the final
array is oldest-first. -/
def buildLast60Minutes (now : Nat) (display : Nat → String)
    (result : List BucketCounter) : List (String × String × Nat) :=
  (List.range 60).foldl (fun acc i => seriesSlot now display result i :: acc) []

/-- Handler for `GET /api/analytics/pageloads` (`src/index.ts:142`): computes the range
query from `endTime = now` and `startTime = now - 60*60*1000`; `display`
models `Date.prototype.toLocaleTimeString` (locale-defined); `queryRes` is
the outcome of the awaited `find`.  Returns the issued query and the
response. -/
def getPageloads (now : Nat) (display : Nat → String)
    (queryRes : Except String (List BucketCounter)) :
    RangeQuery × Response :=
  let startTime := now - 60 * 60 * 1000
  let startTimeKey := substring016 (toISOString startTime) ++ "0:00"
  let endTimeKey := substring016 (toISOString now) ++ "0:00"
  (⟨"pageLoad", startTimeKey, endTimeKey⟩,
    match queryRes with
    | .error e => errorHandler e
    | .ok result => ⟨200, ApiBody.series (buildLast60Minutes now display result)⟩)

/-! ## The store's upsert-increment (spec §4.2) -/

/-- Does counter `c` match the (`eventType`, `timeKey`) pair? -/
def matchesKey (et tk : String) (c : BucketCounter) : Bool :=
  c.eventType == et && c.timeKey == tk

/-- Modelled from the spec: `incrementBucket(eventType, timeKey, now)`
(spec §4.2) — the semantics of MongoDB's
`findOneAndUpdate(filter, \x7b $inc, $set \x7d, \x7b upsert: true \x7d)`
invoked at `src/index.ts:57`; the store engine itself is not part of
`src/`.  Atomically: if a counter for the pair exists, increment its
`count` by 1 and set `lastUpdated := now`; otherwise insert a fresh counter
with `count = 1`.  The store state is the list of `BucketCounter`
documents. -/
def incrementBucket (store : List BucketCounter) (et tk : String)
    (now : Nat) : List BucketCounter :=
  if store.any (matchesKey et tk) then
    store.map (fun c =>
      if matchesKey et tk c then
        { c with count := c.count + 1, lastUpdated := now }
      else c)
  else
    store ++ [⟨et, tk, 1, now⟩]

/-- Folding a sequence of call instants through `incrementBucket`:
one serialization of N (possibly concurrent) atomic calls. -/
def incrementMany (store : List BucketCounter) (et tk : String)
    (ts : List Nat) : List BucketCounter :=
  ts.foldl (fun s t => incrementBucket s et tk t) store

/-- A call on a pair with no existing counter creates the counter with
`count = 1` and `lastUpdated` the call's timestamp. -/
theorem incrementBucket_create (et tk : String) (store : List BucketCounter)
    (t : Nat) (h : store.filter (matchesKey et tk) = []) :
    (incrementBucket store et tk t).filter (matchesKey et tk)
      = [⟨et, tk, 1, t⟩] := by
  have hany : store.any (matchesKey et tk) = false := by
    rw [List.any_eq_false]
    intro x hx
    have := List.filter_eq_nil_iff.mp h x hx
    simpa using this
  simp only [incrementBucket, hany, Bool.false_eq_true, if_false,
    List.filter_append, h, List.nil_append]
  simp [matchesKey]

/-- A call on a pair whose counter is present increments `count` by 1 and
sets `lastUpdated` to the call's timestamp. -/
theorem incrementBucket_update (et tk : String) (store : List BucketCounter)
    (t : Nat) (c : BucketCounter)
    (h : store.filter (matchesKey et tk) = [c]) :
    (incrementBucket store et tk t).filter (matchesKey et tk)
      = [{ c with count := c.count + 1, lastUpdated := t }] := by
  have hc : c ∈ store.filter (matchesKey et tk) := by simp [h]
  have hmem := (List.mem_filter.mp hc).1
  have hpc : matchesKey et tk c = true := (List.mem_filter.mp hc).2
  have hany : store.any (matchesKey et tk) = true :=
    List.any_eq_true.mpr ⟨c, hmem, hpc⟩
  set f : BucketCounter → BucketCounter := fun x =>
    if matchesKey et tk x then { x with count := x.count + 1, lastUpdated := t }
    else x with hf
  have hpf : ∀ x, matchesKey et tk (f x) = matchesKey et tk x := by
    intro x
    simp only [hf]
    by_cases hx : matchesKey et tk x = true
    · rw [if_pos hx]
      simp [matchesKey]
    · rw [if_neg hx]
  have hib : (incrementBucket store et tk t) = store.map f := by
    simp [incrementBucket, hany, hf]
  rw [hib, List.filter_map]
  have hfe : store.filter (matchesKey et tk ∘ f) = store.filter (matchesKey et tk) :=
    List.filter_congr (fun x _ => by simp only [Function.comp_apply, hpf])
  rw [hfe, h]
  simp [hf, hpc]

/-- After any nonempty serialization of calls on a pair that starts absent,
exactly one counter exists for the pair, with `count` the number of calls
and `lastUpdated` the last call's timestamp. -/
theorem getLastD_cons' {α : Type} (a d : α) (l : List α) :
    (a :: l).getLastD d = l.getLastD a := by
  cases l <;> simp [List.getLastD]

theorem incrementMany_invariant (et tk : String) (ts : List Nat) :
    ∀ (store : List BucketCounter) (c : BucketCounter),
    store.filter (matchesKey et tk) = [c] →
    (incrementMany store et tk ts).filter (matchesKey et tk)
      = [⟨et, tk, c.count + ts.length, ts.getLastD c.lastUpdated⟩] := by
  induction ts with
  | nil =>
    intro store c h
    have hc : c ∈ store.filter (matchesKey et tk) := by simp [h]
    have hpc : matchesKey et tk c = true := (List.mem_filter.mp hc).2
    simp only [matchesKey, Bool.and_eq_true, beq_iff_eq] at hpc
    obtain ⟨h1, h2⟩ := hpc
    subst h1 h2
    exact h
  | cons u us ih =>
    intro store c h
    have hc : c ∈ store.filter (matchesKey et tk) := by simp [h]
    have hpc : matchesKey et tk c = true := (List.mem_filter.mp hc).2
    simp only [matchesKey, Bool.and_eq_true, beq_iff_eq] at hpc
    obtain ⟨h1, h2⟩ := hpc
    subst h1 h2
    have step := incrementBucket_update c.eventType c.timeKey store u c h
    have hm : incrementMany store c.eventType c.timeKey (u :: us)
        = incrementMany (incrementBucket store c.eventType c.timeKey u)
            c.eventType c.timeKey us := rfl
    rw [hm]
    have e1 : c.count + (u :: us).length = (c.count + 1) + us.length := by
      simp only [List.length_cons]
      omega
    rw [e1, getLastD_cons']
    exact ih (incrementBucket store c.eventType c.timeKey u)
      { c with count := c.count + 1, lastUpdated := u } step

/-! ## Sanity checks of the `Date.toISOString` model against known values -/

theorem iso_epoch : toISOString 0 = "1970-01-01T00:00:00.000Z" := by decide

theorem iso_minute : toISOString 60000 = "1970-01-01T00:01:00.000Z" := by decide

theorem iso_leap_day : toISOString 951825296789 = "2000-02-29T11:54:56.789Z" := by
  decide

theorem iso_century : toISOString 4107542399999 = "2100-02-28T23:59:59.999Z" := by
  decide

theorem bucketKey_epoch : bucketKey 0 = "1970-01-01T00:000:00" := by decide

/-! ## Structure of the ISO string and the bucket key -/

theorem padNum_length (w n : Nat) : (padNum w n).length = w := by
  induction w generalizing n with
  | zero => rfl
  | succ w ih => simp [padNum, ih]

theorem dateChars_append (z : Nat) (r : List Char) :
    dateChars z r = dateChars z [] ++ r := by
  simp [dateChars, List.append_assoc]

theorem isoPre16_append (ms : Nat) (r : List Char) :
    isoPre16 ms r = isoPre16 ms [] ++ r := by
  unfold isoPre16
  conv_lhs => rw [dateChars_append]
  conv_rhs => rw [dateChars_append]
  simp [List.append_assoc]

theorem dateChars_length (z : Nat) (r : List Char) :
    (dateChars z r).length = 10 + r.length := by
  simp [dateChars, padNum_length]
  omega

theorem isoPre16_length (ms : Nat) : (isoPre16 ms []).length = 16 := by
  simp [isoPre16, dateChars_length, padNum_length]

theorem isoChars_split (ms : Nat) :
    isoChars ms = isoPre16 ms []
      ++ (':' :: padNum 2 (msOfDay ms % 60000 / 1000)
          ++ '.' :: padNum 3 (msOfDay ms % 1000) ++ ['Z']) := by
  rw [isoChars, isoPre16_append]

theorem isoChars_take16 (ms : Nat) : (isoChars ms).take 16 = isoPre16 ms [] := by
  rw [isoChars_split, ← isoPre16_length ms]
  exact List.take_left _ _

theorem bucketKey_mk (ms : Nat) :
    bucketKey ms = ⟨isoPre16 ms ['0', ':', '0', '0']⟩ := by
  show (⟨(isoChars ms).take 16⟩ : String) ++ "0:00" = _
  rw [isoChars_take16, isoPre16_append]
  rfl

/-- The first 16 ISO characters depend on the instant only through its
minute number `ms / 60000`. -/
theorem isoPre16_minute (ms : Nat) (r : List Char) :
    isoPre16 ms r = minutePre (ms / 60000) r := by
  have e1 : dayOf ms = ms / 60000 / 1440 := by
    rw [Nat.div_div_eq_div_mul]
    show ms / 86400000 = ms / (60000 * 1440)
    norm_num
  have e2 : msOfDay ms / 3600000 = ms / 60000 % 1440 / 60 := by
    have l : msOfDay ms / 3600000 = ms / 3600000 % 24 := by
      show ms % 86400000 / 3600000 = _
      have : (86400000 : Nat) = 3600000 * 24 := by norm_num
      rw [this, Nat.mod_mul_right_div_self]
    have r' : ms / 60000 % 1440 / 60 = ms / 60000 / 60 % 24 := by
      have : (1440 : Nat) = 60 * 24 := by norm_num
      rw [this, Nat.mod_mul_right_div_self]
    rw [l, r', Nat.div_div_eq_div_mul]
  have e3 : msOfDay ms % 3600000 / 60000 = ms / 60000 % 60 := by
    have l : msOfDay ms % 3600000 = ms % 3600000 := by
      show ms % 86400000 % 3600000 = _
      exact Nat.mod_mod_of_dvd ms (by norm_num)
    have : (3600000 : Nat) = 60000 * 60 := by norm_num
    rw [l, this, Nat.mod_mul_right_div_self]
  rw [isoPre16, minutePre, e1, e2, e3]

theorem bucketKey_minutePre (ms : Nat) :
    bucketKey ms = ⟨minutePre (ms / 60000) ['0', ':', '0', '0']⟩ := by
  rw [bucketKey_mk, isoPre16_minute]

/-! ## C1 — one key rule at every site -/

/-- C1: `bucketKey` is exactly the first 16 characters of the ISO-8601 UTC
string with `"0:00"` appended, and the page-load ingestion handler, the
range-query key computation, and the 60-slot series builder all compute
their minute keys by this same rule. -/
theorem bucket_key_rule_uniform {J : Type} (now i : Nat) (uuid : String)
    (ua ip referer : Option String) (body : J) (display : Nat → String)
    (result : List BucketCounter)
    (qr : Except String (List BucketCounter)) :
    bucketKey now = substring016 (toISOString now) ++ "0:00"
    ∧ (recordPageLoad now uuid ua ip referer body
        (Except.ok ()) (Except.ok ())).1.head?
        = some (StoreWrite.inc "pageLoad" (bucketKey now) now)
    ∧ (getPageloads now display qr).1.gteKey = bucketKey (now - 60 * 60 * 1000)
    ∧ (getPageloads now display qr).1.lteKey = bucketKey now
    ∧ (seriesSlot now display result i).1 = bucketKey (now - i * 60000) :=
  ⟨rfl, rfl, rfl, rfl, rfl⟩

/-! ## C2 — effective granularity of the key scheme -/

/-- C2 counterexample: the instants `1970-01-01T00:00:00.000Z` and
`1970-01-01T00:01:00.000Z` agree on the first 15 characters of their ISO
strings (same ten-minute window) yet get different bucket keys, because
`substring(0, 16)` retains the units digit of the minute. -/
theorem bucket_key_not_ten_minute :
    (toISOString 0).data.take 15 = (toISOString 60000).data.take 15
    ∧ bucketKey 0 ≠ bucketKey 60000 := by
  constructor
  · decide
  · decide

/-- C2 amended: `substring(0, 16)` truncates *after* the units digit of the
minute, so the keys of two instants agree exactly when their ISO strings
agree on the first 16 characters — i.e. when they fall in the same UTC
minute.  The effective bucket granularity is 1 minute, not 10 minutes. -/
theorem bucket_key_minute_granularity (t1 t2 : Nat)
    (h : t1 / 60000 = t2 / 60000) : bucketKey t1 = bucketKey t2 := by
  rw [bucketKey_minutePre, bucketKey_minutePre, h]

theorem bucket_key_minute_granularity_witness :
    (0 : Nat) / 60000 = 59999 / 60000 ∧ bucketKey 0 = bucketKey 59999 :=
  ⟨by decide, bucket_key_minute_granularity 0 59999 (by decide)⟩

/-! ## C3 — the 60-slot densified series -/

theorem foldl_cons_rev {α β : Type} (f : α → β) (l : List α) :
    ∀ acc, l.foldl (fun acc i => f i :: acc) acc = (l.map f).reverse ++ acc := by
  induction l with
  | nil => intro acc; rfl
  | cons a l ih =>
    intro acc
    simp only [List.foldl_cons, List.map_cons, List.reverse_cons, ih,
      List.append_assoc, List.singleton_append]

theorem buildLast60Minutes_eq (now : Nat) (display : Nat → String)
    (result : List BucketCounter) :
    buildLast60Minutes now display result
      = ((List.range 60).map (seriesSlot now display result)).reverse := by
  unfold buildLast60Minutes
  rw [foldl_cons_rev]
  simp

theorem buildLast60Minutes_length (now : Nat) (display : Nat → String)
    (result : List BucketCounter) :
    (buildLast60Minutes now display result).length = 60 := by
  rw [buildLast60Minutes_eq]
  simp

theorem buildLast60Minutes_get (now : Nat) (display : Nat → String)
    (result : List BucketCounter) (j : Nat) (hj : j < 60) :
    (buildLast60Minutes now display result)[j]?
      = some (seriesSlot now display result (59 - j)) := by
  rw [buildLast60Minutes_eq]
  rw [List.getElem?_reverse (by simpa using hj)]
  simp only [List.length_map, List.length_range]
  rw [List.getElem?_map]
  have h59 : 60 - 1 - j < 60 := by omega
  rw [List.getElem?_range h59]
  rfl

/-- C3: `GET /api/analytics/pageloads` queries the inclusive range
`[bucketKey (now - 60min), bucketKey now]` for `eventType = "pageLoad"`,
and — whatever counters the store returns — responds with exactly 60
slots, oldest first, where slot `j` (i.e. `i = 59 - j` minutes back) has
`timeKey = bucketKey (now - i*60000)`, `displayTime = display` at that
instant, and `count` the `count` of the first returned counter with
exactly that `timeKey`, or 0 if none matches.  (`now ≥ 60min` keeps the
instants of the window inside the model's epoch-based time domain.) -/
theorem pageloads_densification (now : Nat) (display : Nat → String)
    (counters : List BucketCounter) (hnow : 3600000 ≤ now) :
    (getPageloads now display (Except.ok counters)).1
      = ⟨"pageLoad", bucketKey (now - 60 * 60 * 1000), bucketKey now⟩
    ∧ (getPageloads now display (Except.ok counters)).2
      = ⟨200, ApiBody.series (buildLast60Minutes now display counters)⟩
    ∧ (buildLast60Minutes now display counters).length = 60
    ∧ (∀ j, j < 60 →
        (buildLast60Minutes now display counters)[j]?
          = some (seriesSlot now display counters (59 - j)))
    ∧ (∀ i, seriesSlot now display counters i
        = (bucketKey (now - i * 60000), display (now - i * 60000),
            ((counters.find? (fun c =>
              c.timeKey == bucketKey (now - i * 60000))).map
                BucketCounter.count).getD 0)) := by
  refine ⟨rfl, rfl, buildLast60Minutes_length now display counters,
    fun j hj => buildLast60Minutes_get now display counters j hj,
    fun i => ?_⟩
  simp only [seriesSlot]
  cases hf : counters.find? (fun item =>
      item.timeKey == substring016 (toISOString (now - i * 60000)) ++ "0:00") <;>
    simp [hf, bucketKey]

theorem pageloads_densification_witness :
    (3600000 : Nat) ≤ 3600000
    ∧ ((getPageloads 3600000 (fun _ => "t") (Except.ok [])).1
        = ⟨"pageLoad", bucketKey (3600000 - 60 * 60 * 1000), bucketKey 3600000⟩
    ∧ (getPageloads 3600000 (fun _ => "t") (Except.ok [])).2
        = ⟨200, ApiBody.series (buildLast60Minutes 3600000 (fun _ => "t") [])⟩
    ∧ (buildLast60Minutes 3600000 (fun _ => "t") []).length = 60
    ∧ (∀ j, j < 60 →
        (buildLast60Minutes 3600000 (fun _ => "t") [])[j]?
          = some (seriesSlot 3600000 (fun _ => "t") [] (59 - j)))
    ∧ (∀ i, seriesSlot 3600000 (fun _ => "t") [] i
        = (bucketKey (3600000 - i * 60000), "t",
            ((([] : List BucketCounter).find? (fun c =>
              c.timeKey == bucketKey (3600000 - i * 60000))).map
                BucketCounter.count).getD 0))) :=
  ⟨by decide, pageloads_densification 3600000 (fun _ => "t") [] (by decide)⟩

/-! ## C4 — no lost updates in the upsert-increment -/

/-- C4: starting from a store with no counter for the pair, any
serialization of `N ≥ 1` atomic `incrementBucket` calls (the store executes
concurrent `findOneAndUpdate` upserts atomically, so concurrent calls are
serialized in some order) leaves exactly one `BucketCounter` for the pair,
with `count = N`; the first call creates it with `count = 1` and each later
call increments it and sets `lastUpdated` to the call's timestamp. -/
theorem increment_bucket_no_lost_updates (et tk : String)
    (store : List BucketCounter) (t : Nat) (ts : List Nat)
    (h : store.filter (matchesKey et tk) = []) :
    (incrementMany store et tk (t :: ts)).filter (matchesKey et tk)
      = [⟨et, tk, (t :: ts).length, ts.getLastD t⟩] := by
  have step := incrementBucket_create et tk store t h
  have hm : incrementMany store et tk (t :: ts)
      = incrementMany (incrementBucket store et tk t) et tk ts := rfl
  rw [hm]
  have := incrementMany_invariant et tk ts
    (incrementBucket store et tk t) ⟨et, tk, 1, t⟩ step
  simpa [Nat.add_comm] using this

theorem increment_bucket_no_lost_updates_witness :
    ([] : List BucketCounter).filter (matchesKey "pageLoad" "k") = []
    ∧ (incrementMany [] "pageLoad" "k" [5, 6, 7]).filter
        (matchesKey "pageLoad" "k")
      = [⟨"pageLoad", "k", 3, 7⟩] :=
  ⟨rfl, increment_bucket_no_lost_updates "pageLoad" "k" [] 5 [6, 7] rfl⟩

/-! ## C6 — successful page-load ingestion -/

/-- C6: a successful `POST /api/analytics/pageload` issues exactly two
store writes — the counter increment for `("pageLoad", bucketKey now)` and
one detail append whose record has `eventType = "pageLoadDetail"`,
`timeKey = bucketKey now ++ "#" ++ uuid` for the fresh `uuid`,
`timestamp = now`, `eventData` the raw body, and
`userAgent`/`referrer` defaulting to `"Unknown"`/`"Direct"` — and responds
`200 \x7b success: true \x7d`. -/
theorem record_pageload_success {J : Type} (now : Nat) (uuid : String)
    (ua ip referer : Option String) (body : J) :
    recordPageLoad now uuid ua ip referer body (Except.ok ()) (Except.ok ())
      = ([StoreWrite.inc "pageLoad" (bucketKey now) now,
          StoreWrite.detailPageLoad {
            eventType := "pageLoadDetail"
            timeKey := bucketKey now ++ "#" ++ uuid
            timestamp := now
            userAgent := ua.getD "Unknown"
            ipAddress := ip
            referrer := referer.getD "Direct"
            eventData := body }], ok200)
    ∧ (recordPageLoad now uuid ua ip referer body
        (Except.ok ()) (Except.ok ())).1.length = 2
    ∧ ok200 = ⟨200, ApiBody.ok⟩ :=
  ⟨rfl, rfl, rfl⟩

/-! ## C7 — successful generic-event ingestion -/

/-- C7: a successful `POST /api/analytics/event` with body
`\x7b event: name, data: payload \x7d` issues exactly one store write — a
detail append with `eventType = "event_" ++ name`,
`timeKey = toISOString now ++ "#" ++ uuid`, `timestamp = now`,
`eventData = payload` — performs no counter increment, and responds
`200 \x7b success: true \x7d`. -/
theorem record_event_success {J : Type} (now : Nat) (uuid : String)
    (ua ip referer : Option String) (name : String) (payload : J) :
    recordEvent now uuid ua ip referer (some name) payload (Except.ok ())
      = ([StoreWrite.detailAnalytics {
            eventType := "event_" ++ name
            timeKey := toISOString now ++ "#" ++ uuid
            timestamp := now
            userAgent := ua.getD "Unknown"
            ipAddress := ip
            referrer := referer.getD "Direct"
            eventData := payload }], ok200)
    ∧ (∀ et tk t, StoreWrite.inc et tk t ∉
        (recordEvent now uuid ua ip referer (some name) payload
          (Except.ok ())).1) :=
  ⟨rfl, by intro et tk t; simp [recordEvent]⟩

/-! ## C8 — partial failure keeps the increment -/

/-- C8: if the counter increment succeeds and the detail append then fails,
the effective writes are exactly the one increment — no rollback and no
compensating write — and the caller gets a single 500 error response. -/
theorem record_pageload_append_failure {J : Type} (now : Nat)
    (uuid : String) (ua ip referer : Option String) (body : J)
    (e : String) :
    recordPageLoad now uuid ua ip referer body (Except.ok ()) (Except.error e)
      = ([StoreWrite.inc "pageLoad" (bucketKey now) now], errorHandler e)
    ∧ errorHandler e = ⟨500, ApiBody.err e⟩ :=
  ⟨rfl, rfl⟩

/-! ## C9 — uniform 500 conversion at the request boundary -/

/-- C9: every failure of a store call inside a handler — increment or
append in the page-load handler, append in the event handler, range query
in the series handler — is caught and converted to a 500 response with
body `\x7b success: false, error: message \x7d` (the `errorHandler`
middleware), never swallowed and never another shape. -/
theorem handler_failures_return_500 {J : Type} (now : Nat) (uuid : String)
    (ua ip referer : Option String) (body : J) (event : Option String)
    (payload : J) (display : Nat → String) (e : String) :
    (∀ appendRes, (recordPageLoad now uuid ua ip referer body
        (Except.error e) appendRes).2 = ⟨500, ApiBody.err e⟩)
    ∧ (recordPageLoad now uuid ua ip referer body
        (Except.ok ()) (Except.error e)).2 = ⟨500, ApiBody.err e⟩
    ∧ (recordEvent now uuid ua ip referer event payload
        (Except.error e)).2 = ⟨500, ApiBody.err e⟩
    ∧ (getPageloads now display (Except.error e)).2 = ⟨500, ApiBody.err e⟩ :=
  ⟨fun _ => rfl, rfl, rfl, rfl⟩

/-! ## C10 — missing `event` field is not validated -/

/-- C10: a `POST /api/analytics/event` whose body lacks the `event` field
is not rejected: the handler still appends a detail record whose
`eventType` is `"event_undefined"` and responds `200 \x7b success: true \x7d`. -/
theorem record_event_missing_event {J : Type} (now : Nat) (uuid : String)
    (ua ip referer : Option String) (payload : J) :
    recordEvent now uuid ua ip referer none payload (Except.ok ())
      = ([StoreWrite.detailAnalytics {
            eventType := "event_undefined"
            timeKey := toISOString now ++ "#" ++ uuid
            timestamp := now
            userAgent := ua.getD "Unknown"
            ipAddress := ip
            referrer := referer.getD "Direct"
            eventData := payload }], ok200)
    ∧ ok200.status = 200 :=
  ⟨rfl, rfl⟩

/-! ## C5 — lexicographic monotonicity of the bucket key

The ISO-like key format is fixed-width decimal fields separated by fixed
punctuation, so lexicographic order on the generated strings coincides
with order of the underlying numeric fields; those fields are monotone in
the instant.  The development below proves this for every instant with a
four-digit UTC year (through `9999-12-31`). -/

theorem digitChar_mono : ∀ a, a < 10 → ∀ b, b < 10 → a < b →
    digitChar a < digitChar b := by decide

theorem lex_append_left {r : Char → Char → Prop} (p : List Char)
    {t1 t2 : List Char} (h : List.Lex r t1 t2) :
    List.Lex r (p ++ t1) (p ++ t2) := by
  induction p with
  | nil => exact h
  | cons a p ih => exact List.Lex.cons ih

/-- Strict comparison of equal-width zero-padded numerals propagates to a
strict lexicographic comparison, whatever follows them. -/
theorem padNum_lex (w : Nat) : ∀ a b r1 r2, a < b → b < 10 ^ w →
    List.Lex (· < ·) (padNum w a ++ r1) (padNum w b ++ r2) := by
  induction w with
  | zero =>
    intro a b _ _ h1 h2
    omega
  | succ w ih =>
    intro a b r1 r2 h1 h2
    have hpow : 0 < 10 ^ w := Nat.pos_pow_of_pos w (by norm_num)
    have hq : a / 10 ^ w ≤ b / 10 ^ w := Nat.div_le_div_right h1.le
    have hbq : b / 10 ^ w < 10 :=
      Nat.div_lt_of_lt_mul (by rw [← pow_succ]; exact h2)
    rcases Nat.lt_or_eq_of_le hq with hlt | heq
    · exact List.Lex.rel (digitChar_mono _ (lt_trans hlt hbq) _ hbq hlt)
    · have hmod : a % 10 ^ w < b % 10 ^ w := by
        have ha := Nat.div_add_mod a (10 ^ w)
        have hb := Nat.div_add_mod b (10 ^ w)
        rw [← heq] at hb
        omega
      have hbm : b % 10 ^ w < 10 ^ w := Nat.mod_lt b hpow
      show List.Lex (· < ·)
        (digitChar (a / 10 ^ w) :: (padNum w (a % 10 ^ w) ++ r1))
        (digitChar (b / 10 ^ w) :: (padNum w (b % 10 ^ w) ++ r2))
      rw [heq]
      exact List.Lex.cons (ih _ _ r1 r2 hmod hbm)

/-- Division-with-remainder refines a strict inequality lexicographically. -/
theorem divmod_cases (k a b : Nat) (h : a < b) :
    a / k < b / k ∨ (a / k = b / k ∧ a % k < b % k) := by
  have hle : a / k ≤ b / k := Nat.div_le_div_right h.le
  rcases Nat.lt_or_eq_of_le hle with hlt | heq
  · exact Or.inl hlt
  · refine Or.inr ⟨heq, ?_⟩
    have ha := Nat.div_add_mod a k
    have hb := Nat.div_add_mod b k
    rw [← heq] at hb
    omega

/-! ### Monotonicity and bounds of the year scan -/

theorem daysFrom_succ (y n : Nat) :
    daysFrom y (n + 1) = daysInYear y + daysFrom (y + 1) n := rfl

theorem daysInYear_pos (y : Nat) : 365 ≤ daysInYear y := by
  unfold daysInYear
  split <;> omega

theorem yearLoop_succ (fuel y z : Nat) :
    yearLoop (fuel + 1) y z
      = if z < daysInYear y then (y, z)
        else yearLoop fuel (y + 1) (z - daysInYear y) := rfl

theorem yearLoop_fst_ge (fuel : Nat) : ∀ y z, y ≤ (yearLoop fuel y z).1 := by
  induction fuel with
  | zero => intro y z; exact le_refl y
  | succ fuel ih =>
    intro y z
    rw [yearLoop_succ]
    split
    · exact le_refl y
    · exact le_trans (Nat.le_succ y) (ih (y + 1) (z - daysInYear y))

theorem yearLoop_snd_lt (fuel : Nat) : ∀ y z, z < daysFrom y fuel →
    (yearLoop fuel y z).2 < daysInYear (yearLoop fuel y z).1 := by
  induction fuel with
  | zero =>
    intro y z hz
    exact absurd hz (by simp [daysFrom])
  | succ fuel ih =>
    intro y z hz
    rw [daysFrom_succ] at hz
    rw [yearLoop_succ]
    split
    · simpa using by assumption
    · exact ih (y + 1) (z - daysInYear y) (by omega)

theorem yearLoop_fst_lt (fuel : Nat) : ∀ y z, z < daysFrom y fuel →
    (yearLoop fuel y z).1 < y + fuel := by
  induction fuel with
  | zero =>
    intro y z hz
    exact absurd hz (by simp [daysFrom])
  | succ fuel ih =>
    intro y z hz
    rw [daysFrom_succ] at hz
    rw [yearLoop_succ]
    split
    · omega
    · have := ih (y + 1) (z - daysInYear y) (by omega)
      omega

theorem yearLoop_mono (fuel : Nat) : ∀ y z1 z2, z1 < z2 →
    (yearLoop fuel y z1).1 < (yearLoop fuel y z2).1
    ∨ ((yearLoop fuel y z1).1 = (yearLoop fuel y z2).1
        ∧ (yearLoop fuel y z1).2 < (yearLoop fuel y z2).2) := by
  induction fuel with
  | zero => intro y z1 z2 h; exact Or.inr ⟨rfl, h⟩
  | succ fuel ih =>
    intro y z1 z2 h
    rw [yearLoop_succ fuel y z1, yearLoop_succ fuel y z2]
    by_cases h1 : z1 < daysInYear y
    · by_cases h2 : z2 < daysInYear y
      · rw [if_pos h1, if_pos h2]
        exact Or.inr ⟨rfl, h⟩
      · rw [if_pos h1, if_neg h2]
        exact Or.inl (lt_of_lt_of_le (Nat.lt_succ_self y)
          (yearLoop_fst_ge fuel (y + 1) (z2 - daysInYear y)))
    · have h2 : ¬ z2 < daysInYear y := by omega
      rw [if_neg h1, if_neg h2]
      exact ih (y + 1) (z1 - daysInYear y) (z2 - daysInYear y) (by omega)

theorem daysFrom_add (y a : Nat) : ∀ b,
    daysFrom y (a + b) = daysFrom y a + daysFrom (y + a) b := by
  induction a generalizing y with
  | zero => intro b; simp [daysFrom]
  | succ a ih =>
    intro b
    have h1 : a + 1 + b = (a + b) + 1 := by omega
    rw [h1, daysFrom_succ, daysFrom_succ, ih (y + 1) b]
    have h2 : y + 1 + a = y + (a + 1) := by omega
    rw [h2, Nat.add_assoc]

theorem isLeap_add_400 (y : Nat) : isLeap (y + 400) = isLeap y := by
  unfold isLeap
  have e4 : (y + 400) % 4 = y % 4 := by omega
  have e100 : (y + 400) % 100 = y % 100 := by omega
  have e400 : (y + 400) % 400 = y % 400 := by omega
  rw [e4, e100, e400]

theorem daysInYear_add_400 (y : Nat) : daysInYear (y + 400) = daysInYear y := by
  unfold daysInYear
  rw [isLeap_add_400]

theorem daysFrom_400_succ (y : Nat) : daysFrom (y + 1) 400 = daysFrom y 400 := by
  have h1 : daysFrom y (400 + 1) = daysInYear y + daysFrom (y + 1) 400 :=
    daysFrom_succ y 400
  have h2 : daysFrom y (400 + 1) = daysFrom y 400 + daysFrom (y + 400) 1 :=
    daysFrom_add y 400 1
  have h3 : daysFrom (y + 400) 1 = daysInYear (y + 400) := by
    rw [daysFrom_succ, Nat.add_zero]
    rfl
  have h4 := daysInYear_add_400 y
  omega

set_option maxRecDepth 4000 in
theorem daysFrom_zero_400 : daysFrom 0 400 = 146097 := by decide

theorem daysFrom_400 (y : Nat) : daysFrom y 400 = 146097 := by
  induction y with
  | zero => exact daysFrom_zero_400
  | succ y ih => rw [daysFrom_400_succ, ih]

theorem daysFrom_mul_400 : ∀ k y, daysFrom y (400 * k) = 146097 * k := by
  intro k
  induction k with
  | zero => intro y; simp [daysFrom]
  | succ k ih =>
    intro y
    have h1 : 400 * (k + 1) = 400 + 400 * k := by ring
    rw [h1, daysFrom_add y 400 (400 * k), daysFrom_400, ih (y + 400)]
    ring

set_option maxRecDepth 4000 in
theorem daysFrom_9970_30 : daysFrom 9970 30 = 10957 := by decide

theorem daysFrom_1970 : daysFrom 1970 8030 = 2932897 := by
  have h1 : daysFrom 1970 (8000 + 30)
      = daysFrom 1970 8000 + daysFrom (1970 + 8000) 30 := daysFrom_add 1970 8000 30
  have h2 : daysFrom 1970 8000 = 146097 * 20 := by
    have := daysFrom_mul_400 20 1970
    norm_num at this ⊢
    exact this
  have h3 := daysFrom_9970_30
  norm_num at h1
  rw [h1, h2]
  norm_num [h3]

/-! ### Monotonicity and bounds of the month scan -/

theorem findMonth_fst_ge : ∀ (L : List Nat) (m r : Nat),
    m ≤ (findMonth L m r).1 := by
  intro L
  induction L with
  | nil => intro m r; exact le_refl m
  | cons len rest ih =>
    intro m r
    show m ≤ (if r < len then (m, r + 1) else findMonth rest (m + 1) (r - len)).1
    split
    · exact le_refl m
    · exact le_trans (Nat.le_succ m) (ih (m + 1) (r - len))

theorem findMonth_fst_lt : ∀ (L : List Nat) (m r : Nat), r < L.sum →
    (findMonth L m r).1 < m + L.length := by
  intro L
  induction L with
  | nil =>
    intro m r hr
    exact absurd hr (by simp)
  | cons len rest ih =>
    intro m r hr
    simp only [List.sum_cons] at hr
    show (if r < len then (m, r + 1) else findMonth rest (m + 1) (r - len)).1 < _
    split
    · simp
    · have := ih (m + 1) (r - len) (by omega)
      simp only [List.length_cons]
      omega

theorem findMonth_snd_le : ∀ (L : List Nat) (m r : Nat),
    (∀ x ∈ L, x ≤ 31) → r < L.sum → (findMonth L m r).2 ≤ 31 := by
  intro L
  induction L with
  | nil =>
    intro m r _ hr
    exact absurd hr (by simp)
  | cons len rest ih =>
    intro m r hb hr
    simp only [List.sum_cons] at hr
    show (if r < len then (m, r + 1) else findMonth rest (m + 1) (r - len)).2 ≤ 31
    split
    · have hlen : len ≤ 31 := hb len (by simp)
      simp only []
      omega
    · exact ih (m + 1) (r - len) (fun x hx => hb x (by simp [hx])) (by omega)

theorem findMonth_mono : ∀ (L : List Nat) (m r1 r2 : Nat), r1 < r2 →
    (findMonth L m r1).1 < (findMonth L m r2).1
    ∨ ((findMonth L m r1).1 = (findMonth L m r2).1
        ∧ (findMonth L m r1).2 < (findMonth L m r2).2) := by
  intro L
  induction L with
  | nil =>
    intro m r1 r2 h
    exact Or.inr ⟨rfl, by simpa [findMonth] using h⟩
  | cons len rest ih =>
    intro m r1 r2 h
    show ((if r1 < len then (m, r1 + 1) else findMonth rest (m + 1) (r1 - len)).1
        < (if r2 < len then (m, r2 + 1) else findMonth rest (m + 1) (r2 - len)).1)
      ∨ ((if r1 < len then (m, r1 + 1) else findMonth rest (m + 1) (r1 - len)).1
          = (if r2 < len then (m, r2 + 1) else findMonth rest (m + 1) (r2 - len)).1
        ∧ (if r1 < len then (m, r1 + 1) else findMonth rest (m + 1) (r1 - len)).2
          < (if r2 < len then (m, r2 + 1) else findMonth rest (m + 1) (r2 - len)).2)
    by_cases h1 : r1 < len
    · by_cases h2 : r2 < len
      · rw [if_pos h1, if_pos h2]
        exact Or.inr ⟨rfl, by omega⟩
      · rw [if_pos h1, if_neg h2]
        exact Or.inl (lt_of_lt_of_le (Nat.lt_succ_self m)
          (findMonth_fst_ge rest (m + 1) (r2 - len)))
    · have h2 : ¬ r2 < len := by omega
      rw [if_neg h1, if_neg h2]
      exact ih (m + 1) (r1 - len) (r2 - len) (by omega)

theorem monthLengths_sum (y : Nat) :
    (monthLengths (isLeap y)).sum = daysInYear y := by
  unfold daysInYear
  cases h : isLeap y <;> simp [monthLengths]

theorem monthLengths_le31 (b : Bool) : ∀ x ∈ monthLengths b, x ≤ 31 := by
  cases b <;> decide

theorem monthLengths_length (b : Bool) : (monthLengths b).length = 12 := by
  cases b <;> rfl

/-! ### The calendar conversion at the scale of the model's domain -/

theorem civilYear_snd_lt (z : Nat) (hz : z < 2932897) :
    (civilYear z).2 < daysInYear (civilYear z).1 := by
  refine yearLoop_snd_lt yearFuel 1970 z ?_
  unfold yearFuel
  rw [daysFrom_1970]
  exact hz

theorem civilYear_fst_lt (z : Nat) (hz : z < 2932897) :
    (civilYear z).1 < 10000 := by
  have h : (civilYear z).1 < 1970 + yearFuel := yearLoop_fst_lt yearFuel 1970 z (by
    unfold yearFuel
    rw [daysFrom_1970]
    exact hz)
  unfold yearFuel at h
  omega

theorem civilYear_mono (z1 z2 : Nat) (h : z1 < z2) :
    (civilYear z1).1 < (civilYear z2).1
    ∨ ((civilYear z1).1 = (civilYear z2).1
        ∧ (civilYear z1).2 < (civilYear z2).2) :=
  yearLoop_mono yearFuel 1970 z1 z2 h

/-- Strictly later days (within the four-digit-year era) give strictly
lexicographically greater `YYYY-MM-DD` prefixes, whatever follows. -/
theorem dateChars_lex (z1 z2 : Nat) (h : z1 < z2) (hz2 : z2 < 2932897)
    (r1 r2 : List Char) :
    List.Lex (· < ·) (dateChars z1 r1) (dateChars z2 r2) := by
  show List.Lex (· < ·)
    (padNum 4 (civilYear z1).1
      ++ '-' :: padNum 2 (findMonth (monthLengths (isLeap (civilYear z1).1))
            1 (civilYear z1).2).1
      ++ '-' :: padNum 2 (findMonth (monthLengths (isLeap (civilYear z1).1))
            1 (civilYear z1).2).2 ++ r1)
    (padNum 4 (civilYear z2).1
      ++ '-' :: padNum 2 (findMonth (monthLengths (isLeap (civilYear z2).1))
            1 (civilYear z2).2).1
      ++ '-' :: padNum 2 (findMonth (monthLengths (isLeap (civilYear z2).1))
            1 (civilYear z2).2).2 ++ r2)
  simp only [List.append_assoc, List.cons_append]
  have hy2 : (civilYear z2).1 < 10000 := civilYear_fst_lt z2 hz2
  rcases civilYear_mono z1 z2 h with hy | ⟨hyeq, hdoy⟩
  · refine padNum_lex 4 _ _ _ _ hy ?_
    have e : (10 : Nat) ^ 4 = 10000 := by norm_num
    omega
  · rw [← hyeq]
    have hsum : (civilYear z2).2
        < (monthLengths (isLeap (civilYear z1).1)).sum := by
      rw [monthLengths_sum]
      have hlt := civilYear_snd_lt z2 hz2
      rw [← hyeq] at hlt
      exact hlt
    apply lex_append_left
    refine List.Lex.cons ?_
    rcases findMonth_mono (monthLengths (isLeap (civilYear z1).1)) 1
        (civilYear z1).2 (civilYear z2).2 hdoy with hm | ⟨hmeq, hd⟩
    · refine padNum_lex 2 _ _ _ _ hm ?_
      have h13 := findMonth_fst_lt (monthLengths (isLeap (civilYear z1).1)) 1
        (civilYear z2).2 hsum
      rw [monthLengths_length] at h13
      have e : (10 : Nat) ^ 2 = 100 := by norm_num
      omega
    · rw [hmeq]
      apply lex_append_left
      refine List.Lex.cons ?_
      refine padNum_lex 2 _ _ _ _ hd ?_
      have h31 := findMonth_snd_le (monthLengths (isLeap (civilYear z1).1)) 1
        (civilYear z2).2 (monthLengths_le31 _) hsum
      have e : (10 : Nat) ^ 2 = 100 := by norm_num
      omega

/-- Strictly later minutes (within the domain) give strictly
lexicographically greater 16-character prefixes, whatever follows. -/
theorem minutePre_lex (m1 m2 : Nat) (r1 r2 : List Char) (h : m1 < m2)
    (hz : m2 / 1440 < 2932897) :
    List.Lex (· < ·) (minutePre m1 r1) (minutePre m2 r2) := by
  rcases divmod_cases 1440 m1 m2 h with hd | ⟨hdeq, hm⟩
  · exact dateChars_lex (m1 / 1440) (m2 / 1440) hd hz _ _
  · show List.Lex (· < ·)
      (dateChars (m1 / 1440)
        ('T' :: padNum 2 (m1 % 1440 / 60) ++ ':' :: padNum 2 (m1 % 60) ++ r1))
      (dateChars (m2 / 1440)
        ('T' :: padNum 2 (m2 % 1440 / 60) ++ ':' :: padNum 2 (m2 % 60) ++ r2))
    rw [hdeq]
    conv_lhs => rw [dateChars_append]
    conv_rhs => rw [dateChars_append]
    apply lex_append_left
    simp only [List.append_assoc, List.cons_append]
    refine List.Lex.cons ?_
    rcases divmod_cases 60 (m1 % 1440) (m2 % 1440) hm with hh | ⟨hheq, hmin⟩
    · refine padNum_lex 2 _ _ _ _ hh ?_
      have hb : m2 % 1440 < 1440 := Nat.mod_lt _ (by norm_num)
      have h24 : m2 % 1440 / 60 < 24 := Nat.div_lt_of_lt_mul (by omega)
      have e : (10 : Nat) ^ 2 = 100 := by norm_num
      omega
    · have e1 : m1 % 1440 % 60 = m1 % 60 := Nat.mod_mod_of_dvd m1 (by norm_num)
      have e2 : m2 % 1440 % 60 = m2 % 60 := Nat.mod_mod_of_dvd m2 (by norm_num)
      rw [e1, e2] at hmin
      rw [hheq]
      apply lex_append_left
      refine List.Lex.cons ?_
      refine padNum_lex 2 _ _ _ _ hmin ?_
      have hb : m2 % 60 < 60 := Nat.mod_lt _ (by norm_num)
      have e : (10 : Nat) ^ 2 = 100 := by norm_num
      omega

/-- C5: the bucket key is monotone in the instant — for `t1 < t2` (both in
the model's four-digit-year domain, i.e. before `10000-01-01T00:00:00Z` =
epoch-millisecond 253402300800000), `bucketKey t1 ≤ bucketKey t2` in
lexicographic string order, so lexicographic order on generated keys
coincides with chronological order. -/
theorem bucket_key_monotone (t1 t2 : Nat) (h : t1 < t2)
    (hdom : t2 < 253402300800000) :
    bucketKey t1 ≤ bucketKey t2 := by
  have hle : t1 / 60000 ≤ t2 / 60000 := Nat.div_le_div_right h.le
  rcases Nat.lt_or_eq_of_le hle with hlt | heq
  · have hz : t2 / 60000 / 1440 < 2932897 := by
      rw [Nat.div_div_eq_div_mul]
      have e : (60000 * 1440 : Nat) = 86400000 := by norm_num
      rw [e]
      exact Nat.div_lt_of_lt_mul (by omega)
    have hlex := minutePre_lex (t1 / 60000) (t2 / 60000)
      ['0', ':', '0', '0'] ['0', ':', '0', '0'] hlt hz
    have hstr : bucketKey t1 < bucketKey t2 := by
      rw [bucketKey_minutePre, bucketKey_minutePre, String.lt_iff_toList_lt]
      exact hlex
    exact le_of_lt hstr
  · rw [bucketKey_minutePre, bucketKey_minutePre, heq]

theorem bucket_key_monotone_witness :
    (0 : Nat) < 60000 ∧ (60000 : Nat) < 253402300800000
    ∧ bucketKey 0 ≤ bucketKey 60000 :=
  ⟨by decide, by decide, bucket_key_monotone 0 60000 (by decide) (by decide)⟩

end TxLinker
